import Mathlib

/-
Verification of the data-resolution and aggregation pipeline of
`frontend/static/app.js` (IndiaElecGen dashboard).

The JavaScript source is shallowly embedded: JS numbers are modelled as
rationals, JS truthiness (`x || y`) over possibly-missing fields is modelled
with `Option` plus explicit truthiness helpers, rejected promises are
modelled with `Except String`, and the global mutable dashboard state is
modelled as an explicit `DashboardState` record threaded through the
publishing steps.
-/

/-- JS truthiness of a string: the empty string is falsy. -/
def strTruthy (s : String) : Option String :=
  if s = "" then none else some s

/-- JS truthiness of an optional string field (missing or empty is falsy). -/
def optStrTruthy (o : Option String) : Option String :=
  o.bind strTruthy

/-- Model of the JS idiom `o || d` for a string-valued field. -/
def jsOrStr (o : Option String) (d : String) : String :=
  (optStrTruthy o).getD d

/-- JS truthiness of an optional numeric field (missing or zero is falsy). -/
def optQTruthy (o : Option ℚ) : Option ℚ :=
  o.bind (fun v => if v = 0 then none else some v)

/-- The nine flow quantities summed by the daily rollup
(`DAILY_SUM_KEYS` in app.js, lines 32-42). -/
inductive FlowKey where
  | demand_mwh
  | gen_solar_mwh
  | gen_diesel_mwh
  | gen_ccgt_mwh
  | gen_coal_mwh
  | battery_discharge_mwh
  | battery_charge_mwh
  | battery_net_mwh
  | unserved_mwh
deriving DecidableEq

/-- One hourly dispatch row (`hourly` rows in app.js): a timestamp, the nine
flow quantities indexed by `FlowKey`, and the battery state of charge. -/
structure HRow where
  timestamp : String
  flow : FlowKey → ℚ
  battery_soc_mwh : ℚ

/-- One daily-rollup output row built by `aggregateDaily`. -/
structure DRow where
  timestamp : String
  flow : FlowKey → ℚ
  battery_soc_mwh : ℚ

/-- The calendar-day key of a row: first 10 characters of its timestamp
(`String(row.timestamp).slice(0, 10)`, app.js line 262). -/
def dayKey (row : HRow) : String :=
  row.timestamp.take 10

/-- The fresh accumulator opened for a new day
(app.js lines 264-268: zero for every sum key and for the SOC). -/
def initAcc (day : String) : DRow :=
  { timestamp := day, flow := fun _ => 0, battery_soc_mwh := 0 }

/-- Folding one hourly row into the current day accumulator
(app.js lines 272-276: add every sum key, overwrite the SOC). -/
def addRow (acc : DRow) (row : HRow) : DRow :=
  { timestamp := acc.timestamp
    flow := fun k => acc.flow k + row.flow k
    battery_soc_mwh := row.battery_soc_mwh }

/-- The loop body of `aggregateDaily` (app.js lines 261-277), with the
current day key and its accumulator made explicit: a row whose day key
matches extends the accumulator, a differing day key closes the group and
opens a fresh one. -/
def aggregateDailyGo (day : String) (acc : DRow) : List HRow → List DRow
  | [] => [acc]
  | row :: rest =>
      if dayKey row = day then
        aggregateDailyGo day (addRow acc row) rest
      else
        acc :: aggregateDailyGo (dayKey row) (addRow (initAcc (dayKey row)) row) rest

/-- Embedding of `aggregateDaily` (app.js lines 254-280): group consecutive hourly rows by
calendar-day key, summing flows and keeping the end-of-day SOC. -/
def aggregateDaily : List HRow → List DRow
  | [] => []
  | row :: rest => aggregateDailyGo (dayKey row) (addRow (initAcc (dayKey row)) row) rest

/-- A placeholder hourly row (used only as the default of list lookups). -/
def dummyRow : HRow :=
  { timestamp := "", flow := fun _ => 0, battery_soc_mwh := 0 }

/-- Specification-side view of one finished day group: the group day as
timestamp, the per-key sum of the flows, and the SOC of the last row. -/
def dailyOf (day : String) (chunk : List HRow) : DRow :=
  { timestamp := day
    flow := fun k => (chunk.map (fun r => r.flow k)).sum
    battery_soc_mwh := ((chunk.getLast?).map (fun r => r.battery_soc_mwh)).getD 0 }

/-- Specification-side view of a day group keyed by its first row. -/
def mkDaily (chunk : List HRow) : DRow :=
  dailyOf (dayKey (chunk.headD dummyRow)) chunk

/-- Helper for the run partition: extend the current run while the day key
matches, close it otherwise. -/
def dayChunksGo (key : String) (cur : List HRow) : List HRow → List (List HRow)
  | [] => [cur]
  | row :: rest =>
      if dayKey row = key then
        dayChunksGo key (cur ++ [row]) rest
      else
        cur :: dayChunksGo (dayKey row) [row] rest

/-- The partition of an hourly sequence into maximal consecutive runs of
equal calendar-day key, in input order. -/
def dayChunks : List HRow → List (List HRow)
  | [] => []
  | row :: rest => dayChunksGo (dayKey row) [row] rest

/-- Helper computing the day key of each maximal consecutive run. -/
def runKeysGo (key : String) : List HRow → List String
  | [] => [key]
  | row :: rest =>
      if dayKey row = key then
        runKeysGo key rest
      else
        key :: runKeysGo (dayKey row) rest

/-- The day key of each maximal consecutive run of the input, in order
(duplicated whenever a day key reappears non-consecutively). -/
def runKeys : List HRow → List String
  | [] => []
  | row :: rest => runKeysGo (dayKey row) rest

/-- Embedding of `getWindowedRows` (app.js lines 243-248): the slice of the hourly series
from `start` to `min(hourly.length, start + windowSize)`. -/
def getWindowedRows (hourly : List HRow) (windowSize start : ℕ) : List HRow :=
  ((hourly.take (min hourly.length (start + windowSize))).drop start)

section DailyLemmas

theorem addRow_dailyOf (day : String) (chunk : List HRow) (row : HRow) :
    addRow (dailyOf day chunk) row = dailyOf day (chunk ++ [row]) := by
  unfold addRow dailyOf
  refine congrArg₂ (fun f s => DRow.mk day f s) ?_ ?_
  · funext k
    simp
  · simp

theorem addRow_initAcc (day : String) (row : HRow) :
    addRow (initAcc day) row = dailyOf day [row] := by
  unfold addRow initAcc dailyOf
  refine congrArg₂ (fun f s => DRow.mk day f s) ?_ ?_
  · funext k
    simp
  · simp

theorem headD_append_left {α : Type} (l : List α) (r : List α) (d : α) (h : l ≠ []) :
    (l ++ r).headD d = l.headD d := by
  cases l with
  | nil => exact absurd rfl h
  | cons a t => rfl

theorem aggregateDailyGo_eq_chunks (rest : List HRow) :
    ∀ (key : String) (cur : List HRow), cur ≠ [] →
      dayKey (cur.headD dummyRow) = key →
      aggregateDailyGo key (dailyOf key cur) rest = (dayChunksGo key cur rest).map mkDaily := by
  induction rest with
  | nil =>
      intro key cur _ hkey
      rw [aggregateDailyGo, dayChunksGo, List.map_singleton]
      unfold mkDaily
      rw [hkey]
  | cons row rest ih =>
      intro key cur hne hkey
      by_cases hday : dayKey row = key
      · rw [aggregateDailyGo, dayChunksGo, if_pos hday, if_pos hday,
          addRow_dailyOf]
        exact ih key (cur ++ [row]) (by simp)
          (by rw [headD_append_left cur [row] dummyRow hne, hkey])
      · rw [aggregateDailyGo, dayChunksGo, if_neg hday, if_neg hday,
          addRow_initAcc, List.map_cons]
        have hhead : mkDaily cur = dailyOf key cur := by
          unfold mkDaily
          rw [hkey]
        rw [hhead]
        exact congrArg (fun l => dailyOf key cur :: l)
          (ih (dayKey row) [row] (by simp) rfl)

theorem aggregateDaily_eq_chunks (rows : List HRow) :
    aggregateDaily rows = (dayChunks rows).map mkDaily := by
  cases rows with
  | nil => rfl
  | cons row rest =>
      rw [aggregateDaily, dayChunks, addRow_initAcc]
      exact aggregateDailyGo_eq_chunks rest (dayKey row) [row] (by simp) rfl

theorem dayChunksGo_flatten (rest : List HRow) :
    ∀ (key : String) (cur : List HRow),
      (dayChunksGo key cur rest).flatten = cur ++ rest := by
  induction rest with
  | nil => intro key cur; simp [dayChunksGo]
  | cons row rest ih =>
      intro key cur
      by_cases hday : dayKey row = key
      · rw [dayChunksGo, if_pos hday, ih key (cur ++ [row])]
        simp
      · rw [dayChunksGo, if_neg hday, List.flatten_cons, ih (dayKey row) [row]]
        simp

theorem dayChunks_flatten (rows : List HRow) :
    (dayChunks rows).flatten = rows := by
  cases rows with
  | nil => rfl
  | cons row rest =>
      rw [dayChunks, dayChunksGo_flatten]
      rfl

theorem dayChunksGo_uniform (rest : List HRow) :
    ∀ (key : String) (cur : List HRow), (∀ r ∈ cur, dayKey r = key) →
      ∀ c ∈ dayChunksGo key cur rest, ∀ x ∈ c, ∀ y ∈ c, dayKey x = dayKey y := by
  induction rest with
  | nil =>
      intro key cur hcur c hc x hx y hy
      rw [dayChunksGo] at hc
      simp only [List.mem_singleton] at hc
      subst hc
      rw [hcur x hx, hcur y hy]
  | cons row rest ih =>
      intro key cur hcur c hc x hx y hy
      by_cases hday : dayKey row = key
      · rw [dayChunksGo, if_pos hday] at hc
        refine ih key (cur ++ [row]) ?_ c hc x hx y hy
        intro r hr
        rcases List.mem_append.mp hr with h | h
        · exact hcur r h
        · simp only [List.mem_singleton] at h
          subst h
          exact hday
      · rw [dayChunksGo, if_neg hday] at hc
        rcases List.mem_cons.mp hc with h | h
        · subst h
          rw [hcur x hx, hcur y hy]
        · refine ih (dayKey row) [row] ?_ c h x hx y hy
          intro r hr
          simp only [List.mem_singleton] at hr
          subst hr
          rfl

theorem dayChunks_uniform (rows : List HRow) :
    ∀ c ∈ dayChunks rows, ∀ x ∈ c, ∀ y ∈ c, dayKey x = dayKey y := by
  cases rows with
  | nil => intro c hc; simp [dayChunks] at hc
  | cons row rest =>
      exact dayChunksGo_uniform rest (dayKey row) [row]
        (by intro r hr; simp only [List.mem_singleton] at hr; subst hr; rfl)

theorem addRow_timestamp (acc : DRow) (row : HRow) :
    (addRow acc row).timestamp = acc.timestamp := rfl

theorem initAcc_timestamp (day : String) : (initAcc day).timestamp = day := rfl

theorem aggregateDailyGo_timestamps (rest : List HRow) :
    ∀ (key : String) (acc : DRow), acc.timestamp = key →
      (aggregateDailyGo key acc rest).map DRow.timestamp = runKeysGo key rest := by
  induction rest with
  | nil =>
      intro key acc hts
      simp [aggregateDailyGo, runKeysGo, hts]
  | cons row rest ih =>
      intro key acc hts
      by_cases hday : dayKey row = key
      · rw [aggregateDailyGo, runKeysGo, if_pos hday, if_pos hday]
        exact ih key (addRow acc row) hts
      · rw [aggregateDailyGo, runKeysGo, if_neg hday, if_neg hday, List.map_cons, hts]
        refine congrArg (fun l => key :: l) (ih (dayKey row) (addRow (initAcc (dayKey row)) row) ?_)
        rw [addRow_timestamp, initAcc_timestamp]

theorem aggregateDaily_timestamps (rows : List HRow) :
    (aggregateDaily rows).map DRow.timestamp = runKeys rows := by
  cases rows with
  | nil => rfl
  | cons row rest =>
      rw [aggregateDaily, runKeys]
      refine aggregateDailyGo_timestamps rest (dayKey row) (addRow (initAcc (dayKey row)) row) ?_
      rw [addRow_timestamp, initAcc_timestamp]

end DailyLemmas

/-- Claim C5: for every hourly input sequence, the daily rollup groups
consecutive rows by the first 10 characters of their timestamp; each output
row carries, for every flow key, the exact sum over the rows of its group,
and the state of charge of the last row of the group; the groups are emitted
in first-seen (input) order, they concatenate back to the input, rows of one
group share one day key, and an empty input yields an empty output. -/
theorem aggregateDaily_spec (rows : List HRow) :
    aggregateDaily rows = (dayChunks rows).map mkDaily
    ∧ (dayChunks rows).flatten = rows
    ∧ (∀ c ∈ dayChunks rows, ∀ x ∈ c, ∀ y ∈ c, dayKey x = dayKey y)
    ∧ aggregateDaily ([] : List HRow) = [] :=
  ⟨aggregateDaily_eq_chunks rows, dayChunks_flatten rows, dayChunks_uniform rows, rfl⟩

/-- A concrete hourly row used in closed evaluations. -/
def hrowAt (ts : String) (soc : ℚ) : HRow :=
  { timestamp := ts, flow := fun _ => 0, battery_soc_mwh := soc }

/-- The per-scenario scalar summary payload, restricted to the fields the
embedded pipeline reads (`scenario_id`, `served_energy_mwh`,
`total_demand_mwh`); every field may be absent from the JSON document. -/
structure SummaryPayload where
  scenario_id : Option String := none
  served_energy_mwh : Option ℚ := none
  total_demand_mwh : Option ℚ := none
deriving DecidableEq

/-- One scenario descriptor of the catalog, as built by
`loadScenarioListFromStaticFiles` (app.js lines 137 and 149-161). -/
structure ScenarioDescriptor where
  id : String
  label : String
  source : String
  min_non_fossil_share : Option ℚ := none
  threshold_non_fossil_share : Option ℚ := none
  enforced_min_non_fossil_share : Option ℚ := none
  achieved_non_fossil_share : Option ℚ := none
  achieved_non_fossil_share_served_primary : Option ℚ := none
  achieved_fossil_share_served_primary : Option ℚ := none
  status : Option String := none
  lcoe_usd_per_mwh_served : Option ℚ := none
deriving DecidableEq

/-- One raw entry of `scenario_index.json`; any field may be missing. -/
structure IndexEntry where
  id : Option String := none
  label : Option String := none
  min_non_fossil_share : Option ℚ := none
  threshold_non_fossil_share : Option ℚ := none
  enforced_min_non_fossil_share : Option ℚ := none
  achieved_non_fossil_share : Option ℚ := none
  achieved_non_fossil_share_served_primary : Option ℚ := none
  achieved_fossil_share_served_primary : Option ℚ := none
  status : Option String := none
  lcoe_usd_per_mwh_served : Option ℚ := none
deriving DecidableEq

/-- The scenario index document: its `scenarios` field may be missing or
not an array (modelled as `none`). -/
structure IndexPayload where
  scenarios : Option (List IndexEntry) := none
deriving DecidableEq

/-- The `{default_scenario, scenarios}` catalog shape returned by the
resolver and by the `/api/scenarios` endpoint. -/
structure ScenarioListPayload where
  default_scenario : String
  scenarios : List ScenarioDescriptor
deriving DecidableEq

/-- Outcome of one HTTP fetch, before the `fetchJson` policy is applied:
success, a 404, a non-404 transport error, or an OK response whose body
fails to parse. -/
inductive FetchOutcome (α : Type) where
  | ok (value : α)
  | notFound (msg : String)
  | httpError (msg : String)
  | badPayload (msg : String)

/-- Model of `fetchJson` with the optional flag set (app.js lines 85-95): a 404 yields
`null`; any other transport error or a parse failure is thrown. -/
def fetchJsonOptional {α : Type} : FetchOutcome α → Except String (Option α)
  | .ok value => .ok (some value)
  | .notFound _ => .ok none
  | .httpError msg => .error msg
  | .badPayload msg => .error msg

/-- Model of `fetchJson` without options (app.js lines 85-95): any non-OK response
or parse failure is thrown. -/
def fetchJsonRequired {α : Type} : FetchOutcome α → Except String α
  | .ok value => .ok value
  | .notFound msg => .error msg
  | .httpError msg => .error msg
  | .badPayload msg => .error msg

/-- Conversion of one index entry into a descriptor (app.js lines 144-162):
the id is coerced to a string, defaulted and trimmed, an empty id drops the
entry, the label falls back to the id, and the share/status/LCOE fields are
carried through verbatim. -/
def entryToDescriptor (entry : IndexEntry) : Option ScenarioDescriptor :=
  let id := (entry.id.getD "").trim
  if id = "" then none
  else some
    { id := id
      label := jsOrStr entry.label id
      source := "static_index"
      min_non_fossil_share := entry.min_non_fossil_share
      threshold_non_fossil_share := entry.threshold_non_fossil_share
      enforced_min_non_fossil_share := entry.enforced_min_non_fossil_share
      achieved_non_fossil_share := entry.achieved_non_fossil_share
      achieved_non_fossil_share_served_primary := entry.achieved_non_fossil_share_served_primary
      achieved_fossil_share_served_primary := entry.achieved_fossil_share_served_primary
      status := entry.status
      lcoe_usd_per_mwh_served := entry.lcoe_usd_per_mwh_served }

/-- The dedup loop of `loadScenarioListFromStaticFiles` (app.js lines
165-174), with the `seen` set explicit: a row with an empty or already-seen
id is dropped, otherwise it is kept and its id recorded. -/
def dedupGo (seen : List String) : List ScenarioDescriptor → List ScenarioDescriptor
  | [] => []
  | row :: rest =>
      if row.id = "" ∨ row.id ∈ seen then dedupGo seen rest
      else row :: dedupGo (row.id :: seen) rest

/-- Deduplication by id, first occurrence wins (app.js lines 165-174). -/
def dedupById (rows : List ScenarioDescriptor) : List ScenarioDescriptor :=
  dedupGo [] rows

/-- The descriptor registered for the base case (app.js line 137). -/
def baseDescriptor : ScenarioDescriptor :=
  { id := "base", label := "Base case", source := "static_base" }

/-- Embedding of `loadScenarioListFromStaticFiles` (app.js lines 133-185): probe the base
summary and the scenario index (both optional), build and deduplicate the
descriptor rows, fail when the deduplicated list is empty, and prefer the
first non-base entry as default scenario. -/
def loadScenarioListFromStaticFiles (baseRes : FetchOutcome SummaryPayload)
    (indexRes : FetchOutcome IndexPayload) : Except String ScenarioListPayload :=
  match fetchJsonOptional baseRes with
  | .error e => .error e
  | .ok baseSummary =>
    match fetchJsonOptional indexRes with
    | .error e => .error e
    | .ok indexPayload =>
      let rows :=
        (match baseSummary with
          | some _ => [baseDescriptor]
          | none => []) ++
        (match indexPayload with
          | some payload => (payload.scenarios.getD []).filterMap entryToDescriptor
          | none => [])
      match dedupById rows with
      | [] => .error "No static outputs found."
      | d :: ds =>
          .ok { default_scenario :=
                  ((((d :: ds).find? (fun row => row.id != "base")).map
                    ScenarioDescriptor.id)).getD d.id
                scenarios := d :: ds }

/-- Embedding of `loadScenarioList` (app.js lines 896-919): try static discovery; on any
thrown error fall back to the `/api/scenarios` endpoint (recording API mode
in the boolean); either way fail when the catalog is empty. -/
def loadScenarioList (baseRes : FetchOutcome SummaryPayload)
    (indexRes : FetchOutcome IndexPayload)
    (apiRes : FetchOutcome ScenarioListPayload) :
    Except String (ScenarioListPayload × Bool) :=
  match loadScenarioListFromStaticFiles baseRes indexRes with
  | .ok payload =>
      if payload.scenarios.isEmpty then
        .error "No scenarios found. Generate results first."
      else
        .ok (payload, false)
  | .error _ =>
      match fetchJsonRequired apiRes with
      | .error e => .error e
      | .ok payload =>
          if payload.scenarios.isEmpty then
            .error "No scenarios found. Generate results first."
          else
            .ok (payload, true)

section DedupLemmas

theorem dedupGo_invariant (rows : List ScenarioDescriptor) :
    ∀ (seen : List String),
      List.Sublist (dedupGo seen rows) rows
      ∧ ((dedupGo seen rows).map ScenarioDescriptor.id).Nodup
      ∧ (∀ d ∈ dedupGo seen rows,
          d.id ∉ seen ∧ d.id ≠ "" ∧ rows.find? (fun x => x.id == d.id) = some d)
      ∧ (∀ r ∈ rows, r.id ≠ "" →
          r.id ∈ seen ∨ r.id ∈ (dedupGo seen rows).map ScenarioDescriptor.id) := by
  induction rows with
  | nil =>
      intro seen
      refine ⟨List.Sublist.refl [], List.nodup_nil, ?_, ?_⟩
      · intro d hd
        simp [dedupGo] at hd
      · intro r hr
        simp at hr
  | cons row rest ih =>
      intro seen
      by_cases hskip : row.id = "" ∨ row.id ∈ seen
      · have hgo : dedupGo seen (row :: rest) = dedupGo seen rest := by
          rw [dedupGo, if_pos hskip]
        obtain ⟨ihsub, ihnodup, ihmem, ihcov⟩ := ih seen
        refine ⟨?_, ?_, ?_, ?_⟩
        · rw [hgo]
          exact ihsub.cons row
        · rw [hgo]
          exact ihnodup
        · intro d hd
          rw [hgo] at hd
          obtain ⟨hseen, hne, hfind⟩ := ihmem d hd
          refine ⟨hseen, hne, ?_⟩
          have hbeq : (row.id == d.id) = false := by
            refine beq_eq_false_iff_ne.mpr ?_
            intro heq
            rcases hskip with h | h
            · exact hne (heq ▸ h)
            · exact hseen (heq ▸ h)
          rw [List.find?_cons_of_neg _ (by simp [hbeq])]
          exact hfind
        · intro r hr hrne
          rcases List.mem_cons.mp hr with h | h
          · subst h
            rcases hskip with h' | h'
            · exact absurd h' hrne
            · exact Or.inl h'
          · rw [hgo]
            exact ihcov r h hrne
      · push_neg at hskip
        obtain ⟨hne, hnotseen⟩ := hskip
        have hgo : dedupGo seen (row :: rest)
            = row :: dedupGo (row.id :: seen) rest := by
          rw [dedupGo, if_neg (by push_neg; exact ⟨hne, hnotseen⟩)]
        obtain ⟨ihsub, ihnodup, ihmem, ihcov⟩ := ih (row.id :: seen)
        refine ⟨?_, ?_, ?_, ?_⟩
        · rw [hgo]
          exact ihsub.cons₂ row
        · rw [hgo, List.map_cons, List.nodup_cons]
          refine ⟨?_, ihnodup⟩
          intro hmem
          obtain ⟨d, hd, hdid⟩ := List.mem_map.mp hmem
          exact (ihmem d hd).1 (hdid ▸ List.mem_cons_self row.id seen)
        · intro d hd
          rw [hgo] at hd
          rcases List.mem_cons.mp hd with h | h
          · subst h
            exact ⟨hnotseen, hne, List.find?_cons_of_pos _ (by simp)⟩
          · obtain ⟨hseen, hdne, hfind⟩ := ihmem d h
            have hdrow : d.id ≠ row.id := by
              intro heq
              exact hseen (heq ▸ List.mem_cons_self row.id seen)
            refine ⟨fun hmem => hseen (List.mem_cons_of_mem _ hmem), hdne, ?_⟩
            have hbeq : (row.id == d.id) = false :=
              beq_eq_false_iff_ne.mpr (fun heq => hdrow heq.symm)
            rw [List.find?_cons_of_neg _ (by simp [hbeq])]
            exact hfind
        · intro r hr hrne
          rcases List.mem_cons.mp hr with h | h
          · subst h
            rw [hgo, List.map_cons]
            exact Or.inr (List.mem_cons_self _ _)
          · rcases ihcov r h hrne with hseen | hmem
            · rcases List.mem_cons.mp hseen with h' | h'
              · rw [hgo, List.map_cons]
                exact Or.inr (h' ▸ List.mem_cons_self _ _)
              · exact Or.inl h'
            · rw [hgo, List.map_cons]
              exact Or.inr (List.mem_cons_of_mem _ hmem)

end DedupLemmas

/-- Claim C8: for descriptor sequences whose ids are non-empty (the data
model guarantees non-empty ids), the dedup step keeps each id exactly once
(the output ids are without duplicate and cover every input id), the output
is a subsequence of the input (discovery order preserved), and every kept
descriptor is the first input occurrence of its id. -/
theorem dedupById_spec (rows : List ScenarioDescriptor)
    (hids : ∀ r ∈ rows, r.id ≠ "") :
    ((dedupById rows).map ScenarioDescriptor.id).Nodup
    ∧ (∀ r ∈ rows, r.id ∈ (dedupById rows).map ScenarioDescriptor.id)
    ∧ List.Sublist (dedupById rows) rows
    ∧ (∀ d ∈ dedupById rows, rows.find? (fun x => x.id == d.id) = some d) := by
  obtain ⟨hsub, hnodup, hmem, hcov⟩ := dedupGo_invariant rows []
  refine ⟨hnodup, ?_, hsub, fun d hd => (hmem d hd).2.2⟩
  intro r hr
  rcases hcov r hr (hids r hr) with h | h
  · exact absurd h (List.not_mem_nil r.id)
  · exact h

/-- A concrete descriptor sequence with a duplicated id. -/
def dupRows : List ScenarioDescriptor :=
  [{ id := "nf70", label := "a", source := "s" },
    { id := "nf80", label := "b", source := "s" },
    { id := "nf70", label := "c", source := "s" }]

/-- Claim C8 witness: the dedup guarantees instantiated on a concrete
sequence with a duplicated id. -/
theorem dedupById_spec_witness :
    ((dedupById dupRows).map ScenarioDescriptor.id).Nodup
    ∧ (dedupById dupRows).map ScenarioDescriptor.id = ["nf70", "nf80"] :=
  ⟨(dedupById_spec dupRows (by decide)).1, by decide⟩

/-- The scenario index payload used in closed resolver evaluations. -/
def sampleIndexPayload : IndexPayload :=
  { scenarios := some [{ id := some "nf70", label := some "NF 70" }] }

/-- The API catalog payload used in closed resolver evaluations. -/
def sampleApiCatalog : ScenarioListPayload :=
  { default_scenario := "api_a"
    scenarios := [{ id := "api_a", label := "API A", source := "api" }] }

/-- Claim C6 counterexample: a non-404 transport error while probing the
base summary makes static discovery throw, and the resolver then falls back
to the live API and succeeds — the API is called although static discovery
did not produce an empty deduplicated list, and the non-404 error is not a
hard failure of resolution. -/
theorem loadScenarioList_counterexample :
    loadScenarioList (FetchOutcome.httpError "Internal Server Error")
        (FetchOutcome.ok sampleIndexPayload) (FetchOutcome.ok sampleApiCatalog)
      = Except.ok (sampleApiCatalog, true)
    ∧ loadScenarioListFromStaticFiles (FetchOutcome.httpError "Internal Server Error")
        (FetchOutcome.ok sampleIndexPayload)
      = Except.error "Internal Server Error" :=
  ⟨rfl, rfl⟩

/-- Claim C6 (amended): the resolver consults the live API exactly when
static discovery throws for any reason (empty deduplicated list, malformed
present file, or non-404 transport error); a successful static discovery is
used directly, and when the resolver returns with the API flag set, static
discovery had thrown and the returned catalog is the API payload. -/
theorem loadScenarioList_fallback (baseRes : FetchOutcome SummaryPayload)
    (indexRes : FetchOutcome IndexPayload)
    (apiRes : FetchOutcome ScenarioListPayload) :
    (∀ p, loadScenarioListFromStaticFiles baseRes indexRes = Except.ok p →
        loadScenarioList baseRes indexRes apiRes
          = if p.scenarios.isEmpty then
              Except.error "No scenarios found. Generate results first."
            else Except.ok (p, false))
    ∧ (∀ e, loadScenarioListFromStaticFiles baseRes indexRes = Except.error e →
        loadScenarioList baseRes indexRes apiRes
          = match fetchJsonRequired apiRes with
            | .error e2 => Except.error e2
            | .ok p2 =>
                if p2.scenarios.isEmpty then
                  Except.error "No scenarios found. Generate results first."
                else Except.ok (p2, true))
    ∧ (∀ p u, loadScenarioList baseRes indexRes apiRes = Except.ok (p, u) →
        (u = false → loadScenarioListFromStaticFiles baseRes indexRes = Except.ok p)
        ∧ (u = true →
            (∃ e, loadScenarioListFromStaticFiles baseRes indexRes = Except.error e)
            ∧ fetchJsonRequired apiRes = Except.ok p)) := by
  refine ⟨?_, ?_, ?_⟩
  · intro p hp
    rw [loadScenarioList, hp]
  · intro e he
    rw [loadScenarioList, he]
  · intro p u hpu
    cases hstatic : loadScenarioListFromStaticFiles baseRes indexRes with
    | ok q =>
        have heq : loadScenarioList baseRes indexRes apiRes
            = if q.scenarios.isEmpty then
                Except.error "No scenarios found. Generate results first."
              else Except.ok (q, false) := by
          rw [loadScenarioList, hstatic]
        rw [heq] at hpu
        by_cases hq : q.scenarios.isEmpty
        · rw [if_pos hq] at hpu
          exact absurd hpu (by simp)
        · rw [if_neg hq] at hpu
          obtain ⟨rfl, rfl⟩ : q = p ∧ false = u := by
            simpa using hpu
          refine ⟨fun _ => rfl, fun hu => absurd hu (by simp)⟩
    | error e =>
        cases hapi : fetchJsonRequired apiRes with
        | ok q =>
            have heq : loadScenarioList baseRes indexRes apiRes
                = if q.scenarios.isEmpty then
                    Except.error "No scenarios found. Generate results first."
                  else Except.ok (q, true) := by
              rw [loadScenarioList, hstatic, hapi]
            rw [heq] at hpu
            by_cases hq : q.scenarios.isEmpty
            · rw [if_pos hq] at hpu
              exact absurd hpu (by simp)
            · rw [if_neg hq] at hpu
              obtain ⟨rfl, rfl⟩ : q = p ∧ true = u := by
                simpa using hpu
              exact ⟨fun hu => absurd hu (by simp), fun _ => ⟨⟨e, rfl⟩, rfl⟩⟩
        | error e2 =>
            have heq : loadScenarioList baseRes indexRes apiRes = Except.error e2 := by
              rw [loadScenarioList, hstatic, hapi]
            rw [heq] at hpu
            exact absurd hpu (by simp)

/-- Claim C6 witness: the amended fallback policy instantiated on the
concrete failing-probe inputs. -/
theorem loadScenarioList_fallback_witness :
    (∃ e, loadScenarioListFromStaticFiles
        (FetchOutcome.httpError "Internal Server Error")
        (FetchOutcome.ok sampleIndexPayload) = Except.error e)
    ∧ fetchJsonRequired (FetchOutcome.ok sampleApiCatalog) = Except.ok sampleApiCatalog :=
  ((loadScenarioList_fallback (FetchOutcome.httpError "Internal Server Error")
      (FetchOutcome.ok sampleIndexPayload) (FetchOutcome.ok sampleApiCatalog)).2.2
    sampleApiCatalog true rfl).2 rfl

/-- Claim C10: the daily rollup opens a new output group exactly when a row
has a day key differing from the preceding row: its output timestamps are the
day keys of the maximal consecutive runs of equal day key, in order, so its
length is the number of such runs, and a day key that reappears
non-consecutively yields multiple separate output rows (concrete instance:
days 01, 02, 01 give three output rows). The embedding is a pure function of
the input list, which is returned unchanged to the caller. -/
theorem aggregateDaily_runs (rows : List HRow) :
    (aggregateDaily rows).map DRow.timestamp = runKeys rows
    ∧ (aggregateDaily rows).length = (runKeys rows).length
    ∧ (aggregateDaily
        [hrowAt "2024-01-01T00:00" 0, hrowAt "2024-01-02T00:00" 0,
          hrowAt "2024-01-01T05:00" 0]).map DRow.timestamp =
        ["2024-01-01", "2024-01-02", "2024-01-01"] := by
  refine ⟨aggregateDaily_timestamps rows, ?_, ?_⟩
  · rw [← aggregateDaily_timestamps rows, List.length_map]
  · decide

/-- Claim C9: the sub-range view is the contiguous slice from `start` to
`min(length, start + window)`: it equals taking at most `windowSize` rows
after dropping `start` rows, its length is `min(length, start + window) -
start` (so the window never runs past the end: 100 rows, window 10, start 95
yield 5 rows), and an empty input yields an empty output. -/
theorem getWindowedRows_spec (hourly : List HRow) (windowSize start : ℕ) :
    getWindowedRows hourly windowSize start = (hourly.drop start).take windowSize
    ∧ (getWindowedRows hourly windowSize start).length
        = min hourly.length (start + windowSize) - start
    ∧ (getWindowedRows (List.replicate 100 dummyRow) 10 95).length = 5
    ∧ getWindowedRows [] windowSize start = [] := by
  have hlen : ∀ (l : List HRow) (w s : ℕ),
      (getWindowedRows l w s).length = min l.length (s + w) - s := by
    intro l w s
    rw [getWindowedRows, List.length_drop, List.length_take]
    omega
  refine ⟨?_, hlen hourly windowSize start, ?_, by simp [getWindowedRows]⟩
  · rw [getWindowedRows, List.drop_take]
    rcases le_or_lt start hourly.length with hle | hlt
    · rw [List.take_eq_take, List.length_drop]
      omega
    · rw [List.drop_eq_nil_of_le (le_of_lt hlt)]
      simp
  · rw [hlen]
    simp

/-- One flat cost row; the coarse schema uses `bucket`, the detailed schema
uses `technology` and `component` (any field may be absent). -/
structure CostRow where
  bucket : Option String := none
  technology : Option String := none
  component : Option String := none
  cost_usd : ℚ := 0
deriving DecidableEq

/-- The fixed technology display order (app.js line 487). -/
def techOrder : List String := ["solar", "battery", "diesel", "ccgt", "coal"]

/-- The fixed cost-component display order (app.js line 488). -/
def componentOrder : List String := ["capex_annualized", "fixed_om", "var_om"]

/-- The technology display label (app.js lines 489-495). -/
def techLabel (tech : String) : String :=
  if tech = "solar" then "Solar"
  else if tech = "battery" then "Battery"
  else if tech = "diesel" then "Diesel"
  else if tech = "ccgt" then "CCGT"
  else if tech = "coal" then "Coal"
  else ""

/-- The component display label (app.js lines 496-500). -/
def componentLabel (component : String) : String :=
  if component = "capex_annualized" then "CAPEX (annualized)"
  else if component = "fixed_om" then "Fixed O&M"
  else if component = "var_om" then "Var O&M"
  else ""

/-- The label of a technology-component waterfall step (app.js line 515). -/
def mkStepLabel (tech component : String) : String :=
  techLabel tech ++ " " ++ componentLabel component

/-- Embedding of `valueFor` (app.js lines 502-505): the sum of `cost_usd` over the rows
matching one technology and one component exactly. -/
def valueFor (rows : List CostRow) (technology component : String) : ℚ :=
  ((rows.filter (fun row =>
      row.technology == some technology && row.component == some component)).map
    CostRow.cost_usd).sum

/-- The system-wide unserved-penalty sum (app.js lines 522-524). -/
def unservedPenaltyTotal (rows : List CostRow) : ℚ :=
  ((rows.filter (fun row => row.component == some "unserved_penalty")).map
    CostRow.cost_usd).sum

/-- Model of `Math.abs` (used by the half-unit threshold, app.js lines 511 and 525). -/
def mathAbs (x : ℚ) : ℚ :=
  if x < 0 then -x else x

/-- One waterfall step before scaling (app.js lines 507-527). -/
structure Step where
  label : String
  value : ℚ
  technology : String
deriving DecidableEq

/-- The retained steps of the detailed cost waterfall (app.js lines
507-527): technology-component pairs in display order whose summed value
has magnitude at least one half, then the unserved-penalty step under the
same threshold. -/
def detailedSteps (rows : List CostRow) : List Step :=
  (techOrder.flatMap fun tech =>
    componentOrder.filterMap fun component =>
      if mathAbs (valueFor rows tech component) < 1/2 then none
      else some
        { label := mkStepLabel tech component
          value := valueFor rows tech component
          technology := tech })
  ++ (if 1/2 ≤ mathAbs (unservedPenaltyTotal rows) then
        [{ label := "Unserved Penalty"
           value := unservedPenaltyTotal rows
           technology := "unserved_penalty" }]
      else [])

/-- One rendered waterfall bar: label, scaled value, running-total base. -/
structure WaterfallBar where
  label : String
  value : ℚ
  base : ℚ
deriving DecidableEq

/-- The waterfall accumulation loop (app.js lines 534-544): each step is
emitted at the current running total, which then advances by the scaled
value. -/
def waterfallBars (scale : ℚ) : List Step → ℚ → List WaterfallBar
  | [], _ => []
  | step :: rest, running =>
      { label := step.label, value := step.value * scale, base := running }
        :: waterfallBars scale rest (running + step.value * scale)

/-- The running total left by the waterfall loop (app.js line 543). -/
def waterfallRunning (scale : ℚ) : List Step → ℚ → ℚ
  | [], running => running
  | step :: rest, running => waterfallRunning scale rest (running + step.value * scale)

/-- The detailed branch of `renderCostBreakdown` (app.js lines 487-550):
the scaled steps followed by the synthetic total bar whose value is the
final running total and whose base is zero. -/
def renderCostBreakdownDetailed (rows : List CostRow) (scale : ℚ) : List WaterfallBar :=
  waterfallBars scale (detailedSteps rows) 0
    ++ [{ label := "Total System Cost"
          value := waterfallRunning scale (detailedSteps rows) 0
          base := 0 }]

/-- The served-energy figure used for unit scaling (app.js line 440):
`summary.served_energy_mwh || summary.total_demand_mwh || 0` under JS
truthiness, so a zero or missing served energy falls through. -/
def servedEnergyOf (summary : SummaryPayload) : ℚ :=
  ((optQTruthy summary.served_energy_mwh).orElse
    (fun _ => optQTruthy summary.total_demand_mwh)).getD 0

/-- The unit scale (app.js lines 441-442): the reciprocal of served energy
exactly when per-unit mode is selected and served energy is positive. -/
def costScale (mode : String) (summary : SummaryPayload) : ℚ :=
  if mode = "per_mwh" ∧ 0 < servedEnergyOf summary then 1 / servedEnergyOf summary else 1

/-- The detailed cost chart as a function of the unit-mode selector, the
summary and the cost rows (app.js lines 438-566). -/
def costChartBars (mode : String) (summary : SummaryPayload) (rows : List CostRow) :
    List WaterfallBar :=
  renderCostBreakdownDetailed rows (costScale mode summary)

section WaterfallLemmas

theorem waterfallBars_length (scale : ℚ) (steps : List Step) :
    ∀ running : ℚ, (waterfallBars scale steps running).length = steps.length := by
  induction steps with
  | nil => intro running; rfl
  | cons step rest ih =>
      intro running
      rw [waterfallBars, List.length_cons, List.length_cons, ih]

/-- The default bar used by positional lookups. -/
def defaultBar : WaterfallBar := { label := "", value := 0, base := 0 }

/-- The default step used by positional lookups. -/
def defaultStep : Step := { label := "", value := 0, technology := "" }

theorem waterfallBars_getD (scale : ℚ) (steps : List Step) :
    ∀ (running : ℚ) (i : ℕ), i < steps.length →
      (waterfallBars scale steps running).getD i defaultBar
        = { label := (steps.getD i defaultStep).label
            value := (steps.getD i defaultStep).value * scale
            base := running + (((steps.take i).map (fun s => s.value * scale)).sum) } := by
  induction steps with
  | nil => intro running i hi; simp at hi
  | cons step rest ih =>
      intro running i hi
      cases i with
      | zero => simp [waterfallBars]
      | succ i =>
          rw [waterfallBars]
          have hi2 : i < rest.length := by
            rw [List.length_cons] at hi
            omega
          simp only [List.getD_cons_succ, List.take_succ_cons, List.map_cons, List.sum_cons]
          rw [ih (running + step.value * scale) i hi2, add_assoc]

theorem waterfallRunning_eq (scale : ℚ) (steps : List Step) :
    ∀ running : ℚ,
      waterfallRunning scale steps running
        = running + (steps.map (fun s => s.value * scale)).sum := by
  induction steps with
  | nil => intro running; simp [waterfallRunning]
  | cons step rest ih =>
      intro running
      rw [waterfallRunning, ih, List.map_cons, List.sum_cons]
      ring

theorem mem_waterfallBars_label (scale : ℚ) (steps : List Step) :
    ∀ (running : ℚ) (bar : WaterfallBar), bar ∈ waterfallBars scale steps running →
      ∃ s ∈ steps, bar.label = s.label := by
  induction steps with
  | nil => intro running bar hbar; simp [waterfallBars] at hbar
  | cons step rest ih =>
      intro running bar hbar
      rw [waterfallBars] at hbar
      rcases List.mem_cons.mp hbar with h | h
      · exact ⟨step, List.mem_cons_self step rest, by rw [h]⟩
      · obtain ⟨s, hs, hlabel⟩ := ih (running + step.value * scale) bar h
        exact ⟨s, List.mem_cons_of_mem step hs, hlabel⟩

theorem mem_detailedSteps (rows : List CostRow) (s : Step)
    (hs : s ∈ detailedSteps rows) :
    (∃ tech ∈ techOrder, ∃ component ∈ componentOrder,
        ¬ mathAbs (valueFor rows tech component) < 1/2
        ∧ s = { label := mkStepLabel tech component
                value := valueFor rows tech component
                technology := tech })
    ∨ (1/2 ≤ mathAbs (unservedPenaltyTotal rows)
        ∧ s = { label := "Unserved Penalty"
                value := unservedPenaltyTotal rows
                technology := "unserved_penalty" }) := by
  rw [detailedSteps] at hs
  rcases List.mem_append.mp hs with h | h
  · left
    obtain ⟨tech, htech, hmem⟩ := List.mem_flatMap.mp h
    obtain ⟨component, hcomp, hsome⟩ := List.mem_filterMap.mp hmem
    by_cases hsmall : mathAbs (valueFor rows tech component) < 1/2
    · rw [if_pos hsmall] at hsome
      exact absurd hsome (by simp)
    · rw [if_neg hsmall] at hsome
      exact ⟨tech, htech, component, hcomp, hsmall, (Option.some.injEq .. ▸ hsome).symm⟩
  · right
    by_cases hbig : 1/2 ≤ mathAbs (unservedPenaltyTotal rows)
    · rw [if_pos hbig] at h
      simp only [List.mem_singleton] at h
      exact ⟨hbig, h⟩
    · rw [if_neg hbig] at h
      simp at h

theorem mkStepLabel_inj :
    ∀ t1 ∈ techOrder, ∀ c1 ∈ componentOrder, ∀ t2 ∈ techOrder, ∀ c2 ∈ componentOrder,
      mkStepLabel t1 c1 = mkStepLabel t2 c2 → t1 = t2 ∧ c1 = c2 := by
  decide

theorem mkStepLabel_ne_special :
    ∀ t ∈ techOrder, ∀ c ∈ componentOrder,
      mkStepLabel t c ≠ "Unserved Penalty" ∧ mkStepLabel t c ≠ "Total System Cost" := by
  decide

end WaterfallLemmas

/-- Claim C3: in the detailed cost waterfall, for every cost-row list and
scale: a technology-component step whose matching rows sum to a magnitude
below one half is absent from the output (no bar carries its label); each
retained step bar sits on a base equal to the cumulative sum of the prior
retained steps, scaled; and the final bar is the "Total System Cost" step
whose value is the sum of all retained steps, scaled, at base zero. -/
theorem renderCostBreakdown_waterfall (rows : List CostRow) (scale : ℚ) :
    (∀ tech ∈ techOrder, ∀ component ∈ componentOrder,
        mathAbs (valueFor rows tech component) < 1/2 →
          ∀ bar ∈ renderCostBreakdownDetailed rows scale,
            bar.label ≠ mkStepLabel tech component)
    ∧ (∀ i, i < (detailedSteps rows).length →
        ((renderCostBreakdownDetailed rows scale).getD i defaultBar).base
          = (((detailedSteps rows).take i).map (fun s => s.value * scale)).sum)
    ∧ (renderCostBreakdownDetailed rows scale).getLast?
        = some { label := "Total System Cost"
                 value := ((detailedSteps rows).map (fun s => s.value * scale)).sum
                 base := 0 } := by
  refine ⟨?_, ?_, ?_⟩
  · intro tech htech component hcomp hsmall bar hbar heq
    rw [renderCostBreakdownDetailed] at hbar
    rcases List.mem_append.mp hbar with h | h
    · obtain ⟨s, hs, hlabel⟩ := mem_waterfallBars_label scale (detailedSteps rows) 0 bar h
      rcases mem_detailedSteps rows s hs with
        ⟨t, ht, c, hc, hbig, hstep⟩ | ⟨_, hstep⟩
      · have hlab : mkStepLabel t c = mkStepLabel tech component := by
          rw [← heq, hlabel, hstep]
        obtain ⟨rfl, rfl⟩ := mkStepLabel_inj t ht c hc tech htech component hcomp hlab
        exact hbig hsmall
      · have hlab : mkStepLabel tech component = "Unserved Penalty" := by
          rw [← heq, hlabel, hstep]
        exact (mkStepLabel_ne_special tech htech component hcomp).1 hlab
    · simp only [List.mem_singleton] at h
      rw [h] at heq
      exact (mkStepLabel_ne_special tech htech component hcomp).2 heq.symm
  · intro i hi
    rw [renderCostBreakdownDetailed,
      List.getD_append _ _ _ _ (by rw [waterfallBars_length]; exact hi),
      waterfallBars_getD scale (detailedSteps rows) 0 i hi, zero_add]
  · rw [renderCostBreakdownDetailed, List.getLast?_concat,
      waterfallRunning_eq scale (detailedSteps rows) 0, zero_add]

theorem valueFor_nil (technology component : String) :
    valueFor [] technology component = 0 := rfl

theorem unservedPenaltyTotal_nil : unservedPenaltyTotal [] = 0 := rfl

theorem detailedSteps_nil : detailedSteps [] = [] := by
  have h0 : mathAbs (0 : ℚ) < 2⁻¹ := by norm_num [mathAbs]
  have hn : ¬ ((2 : ℚ)⁻¹ ≤ mathAbs 0) := by norm_num [mathAbs]
  simp [detailedSteps, valueFor_nil, unservedPenaltyTotal_nil, h0, hn,
    techOrder, componentOrder, List.filterMap_cons, List.flatMap_cons]

theorem renderCostBreakdownDetailed_nil (scale : ℚ) :
    renderCostBreakdownDetailed [] scale
      = [{ label := "Total System Cost", value := 0, base := 0 }] := by
  rw [renderCostBreakdownDetailed, detailedSteps_nil]
  rfl

/-- Claim C3 witness: the absence guarantee applied to the single bar of the
waterfall built from an empty row list, at the negligible pair solar and
variable cost. -/
theorem renderCostBreakdown_waterfall_witness :
    (WaterfallBar.mk "Total System Cost" 0 0).label ≠ mkStepLabel "solar" "var_om" :=
  (renderCostBreakdown_waterfall [] 1).1 "solar" (by decide) "var_om" (by decide)
    (by rw [valueFor_nil]; norm_num [mathAbs])
    (WaterfallBar.mk "Total System Cost" 0 0)
    (by rw [renderCostBreakdownDetailed_nil]; exact List.mem_singleton_self _)

/-- The summary used by the claim C4 counterexample: served energy reported as
zero, total demand 500. -/
def summaryZeroServed : SummaryPayload :=
  { served_energy_mwh := some 0, total_demand_mwh := some 500 }

/-- A single detailed cost row of 1000 currency units. -/
def singleCostRow : List CostRow :=
  [{ technology := some "solar", component := some "capex_annualized", cost_usd := 1000 }]

/-- Claim C4 counterexample: with per-unit mode selected, a summary whose
served energy is zero but whose total demand is 500, and a single 1000-unit
cost row, the rendered total is 2 (the code divides by the total-demand
fallback), not the absolute 1000 the claim requires when served energy is
zero. -/
theorem detailedSteps_singleCostRow :
    detailedSteps singleCostRow
      = [{ label := mkStepLabel "solar" "capex_annualized", value := 1000,
           technology := "solar" }] := by
  have hA : ¬ (mathAbs (1000 : ℚ) < 2⁻¹) := by norm_num [mathAbs]
  have hB : mathAbs (0 : ℚ) < 2⁻¹ := by norm_num [mathAbs]
  have hC : ¬ ((2 : ℚ)⁻¹ ≤ mathAbs 0) := by norm_num [mathAbs]
  simp [detailedSteps, valueFor, unservedPenaltyTotal, singleCostRow,
    techOrder, componentOrder, hA, hB, hC, List.filterMap_cons, List.flatMap_cons,
    List.filter_cons]

theorem servedEnergyOf_summaryZeroServed : servedEnergyOf summaryZeroServed = 500 := by
  have h500 : ¬ ((500 : ℚ) = 0) := by norm_num
  simp [servedEnergyOf, summaryZeroServed, optQTruthy, h500]

theorem costScale_counterexample :
    (costChartBars "per_mwh" summaryZeroServed singleCostRow).getLast?
      = some { label := "Total System Cost", value := 2, base := 0 }
    ∧ (costChartBars "per_mwh" summaryZeroServed singleCostRow).getLast?
      ≠ some { label := "Total System Cost", value := 1000, base := 0 } := by
  have hscale : costScale "per_mwh" summaryZeroServed = 1/500 := by
    rw [costScale, servedEnergyOf_summaryZeroServed, if_pos ⟨rfl, by norm_num⟩]
  have hmain : (costChartBars "per_mwh" summaryZeroServed singleCostRow).getLast?
      = some { label := "Total System Cost", value := 2, base := 0 } := by
    rw [costChartBars, hscale, renderCostBreakdownDetailed, detailedSteps_singleCostRow,
      List.getLast?_concat, Option.some.injEq]
    rw [waterfallRunning, waterfallRunning]
    norm_num
  refine ⟨hmain, ?_⟩
  rw [hmain]
  intro h
  rw [Option.some.injEq, WaterfallBar.mk.injEq] at h
  norm_num at h

section ScaleLemmas

/-- Division of one bar by the served energy. -/
def scaleBar (se : ℚ) (bar : WaterfallBar) : WaterfallBar :=
  { label := bar.label, value := bar.value / se, base := bar.base / se }

theorem waterfallBars_div (se : ℚ) (hse : se ≠ 0) (steps : List Step) :
    ∀ running : ℚ,
      waterfallBars (1 / se) steps running
        = (waterfallBars 1 steps (se * running)).map (scaleBar se) := by
  induction steps with
  | nil => intro running; rfl
  | cons step rest ih =>
      intro running
      rw [waterfallBars, waterfallBars, List.map_cons, ih (running + step.value * (1 / se))]
      have harg : se * (running + step.value * (1 / se)) = se * running + step.value * 1 := by
        field_simp
        ring
      rw [harg]
      refine congrArg (fun b => b :: _) ?_
      show WaterfallBar.mk step.label (step.value * (1 / se)) running
        = scaleBar se (WaterfallBar.mk step.label (step.value * 1) (se * running))
      rw [scaleBar]
      refine congrArg₂ (fun v b => WaterfallBar.mk step.label v b) ?_ ?_
      · rw [mul_one, mul_one_div]
      · rw [mul_comm se running, mul_div_assoc, div_self hse, mul_one]

theorem waterfallRunning_div (se : ℚ) (steps : List Step) :
    waterfallRunning (1 / se) steps 0 = waterfallRunning 1 steps 0 / se := by
  rw [waterfallRunning_eq, waterfallRunning_eq, zero_add, zero_add]
  induction steps with
  | nil => simp
  | cons step rest ih =>
      rw [List.map_cons, List.map_cons, List.sum_cons, List.sum_cons, add_div, ← ih,
        mul_one, mul_one_div]

end ScaleLemmas

/-- Claim C4 (amended): in the detailed cost chart, when per-unit mode is
selected and the resolved served energy is positive, every bar (value and
base alike) and the total are those of the unscaled chart divided by the
resolved served energy; the resolution falls back from `served_energy_mwh`
to `total_demand_mwh` when the former is zero or missing, and scaling is
skipped exactly when the resolved figure is zero (both fields zero or
missing) or when total mode is selected. -/
theorem costScale_spec (mode : String) (summary : SummaryPayload) (rows : List CostRow) :
    (mode = "per_mwh" → 0 < servedEnergyOf summary →
        costChartBars mode summary rows
          = (renderCostBreakdownDetailed rows 1).map (scaleBar (servedEnergyOf summary)))
    ∧ (servedEnergyOf summary = 0 →
        costChartBars mode summary rows = renderCostBreakdownDetailed rows 1)
    ∧ (mode ≠ "per_mwh" →
        costChartBars mode summary rows = renderCostBreakdownDetailed rows 1) := by
  refine ⟨?_, ?_, ?_⟩
  · intro hmode hpos
    have hse : servedEnergyOf summary ≠ 0 := ne_of_gt hpos
    rw [costChartBars, costScale, if_pos ⟨hmode, hpos⟩, renderCostBreakdownDetailed,
      renderCostBreakdownDetailed, List.map_append,
      waterfallBars_div (servedEnergyOf summary) hse (detailedSteps rows) 0, mul_zero,
      List.map_singleton]
    refine congrArg (fun b => _ ++ [b]) ?_
    rw [scaleBar]
    refine congrArg₂ (fun v b => WaterfallBar.mk "Total System Cost" v b) ?_ ?_
    · exact waterfallRunning_div (servedEnergyOf summary) (detailedSteps rows)
    · rw [zero_div]
  · intro hzero
    rw [costChartBars, costScale]
    rw [if_neg (by rw [hzero]; simp)]
  · intro hmode
    rw [costChartBars, costScale]
    rw [if_neg (by intro h; exact hmode h.1)]

/-- The summary of the per-unit example in the specification: served energy
1000. -/
def summaryServed1000 : SummaryPayload :=
  { served_energy_mwh := some 1000 }

/-- A single detailed cost row of 100000 currency units. -/
def costRow100k : List CostRow :=
  [{ technology := some "solar", component := some "capex_annualized", cost_usd := 100000 }]

theorem servedEnergyOf_summaryServed1000 : servedEnergyOf summaryServed1000 = 1000 := by
  have h : ¬ ((1000 : ℚ) = 0) := by norm_num
  simp [servedEnergyOf, summaryServed1000, optQTruthy, h]

theorem detailedSteps_costRow100k :
    detailedSteps costRow100k
      = [{ label := mkStepLabel "solar" "capex_annualized", value := 100000,
           technology := "solar" }] := by
  have hA : ¬ (mathAbs (100000 : ℚ) < 2⁻¹) := by norm_num [mathAbs]
  have hB : mathAbs (0 : ℚ) < 2⁻¹ := by norm_num [mathAbs]
  have hC : ¬ ((2 : ℚ)⁻¹ ≤ mathAbs 0) := by norm_num [mathAbs]
  simp [detailedSteps, valueFor, unservedPenaltyTotal, costRow100k,
    techOrder, componentOrder, hA, hB, hC, List.filterMap_cons, List.flatMap_cons,
    List.filter_cons]

/-- Claim C4 witness: scaling applied at served energy 1000, and the
concrete per-unit total of a 100000-unit cost at served energy 1000 is
exactly 100. -/
theorem costScale_spec_witness :
    costChartBars "per_mwh" summaryServed1000 costRow100k
      = (renderCostBreakdownDetailed costRow100k 1).map
          (scaleBar (servedEnergyOf summaryServed1000))
    ∧ (costChartBars "per_mwh" summaryServed1000 costRow100k).getLast?
      = some { label := "Total System Cost", value := 100, base := 0 } := by
  refine ⟨(costScale_spec "per_mwh" summaryServed1000 costRow100k).1 rfl
    (by rw [servedEnergyOf_summaryServed1000]; norm_num), ?_⟩
  have hscale : costScale "per_mwh" summaryServed1000 = 1/1000 := by
    rw [costScale, servedEnergyOf_summaryServed1000, if_pos ⟨rfl, by norm_num⟩]
  rw [costChartBars, hscale, renderCostBreakdownDetailed, detailedSteps_costRow100k,
    List.getLast?_concat, Option.some.injEq]
  rw [waterfallRunning, waterfallRunning]
  norm_num

/-- One normalized assumption row after column aliasing. -/
structure AssumptionRow where
  assumption : String := ""
  value : Option String := none
  unit : String := ""
deriving DecidableEq

/-- One raw assumptions CSV row; each column may appear under its canonical
header or its human-readable alias, or be absent. -/
structure RawAssumptionRow where
  assumption : Option String := none
  assumption_alias : Option String := none
  value : Option String := none
  value_alias : Option String := none
  unit : Option String := none
  unit_notes_alias : Option String := none
deriving DecidableEq

/-- The column aliasing applied to static-mode assumption rows (app.js lines
954-958): prefer the canonical header, else the alias, else empty or null. -/
def mapAssumptionRow (row : RawAssumptionRow) : AssumptionRow :=
  { assumption := ((row.assumption.orElse (fun _ => row.assumption_alias)).getD "")
    value := row.value.orElse (fun _ => row.value_alias)
    unit := ((row.unit.orElse (fun _ => row.unit_notes_alias)).getD "") }

/-- An API row payload: its `rows` field may be missing. -/
structure RowsPayload (α : Type) where
  rows : Option (List α) := none

/-- The mutable dashboard data replaced by a scenario load (the globals
`currentScenario`, `summary`, `hourly`, `costRows`, `assumptionsRows` of
app.js, lines 21-25). -/
structure DashboardState where
  currentScenario : String
  summary : SummaryPayload
  hourly : List HRow
  costRows : List CostRow
  assumptionsRows : List AssumptionRow

/-- The API branch of `loadScenarioData` (app.js lines 922-937): four
concurrent retrievals; on success the summary-reported scenario id wins over
the requested one, and each missing `rows` field defaults to empty. -/
def loadScenarioDataApi (scenarioId : String)
    (summaryRes : Except String SummaryPayload)
    (hourlyRes : Except String (RowsPayload HRow))
    (costRes : Except String (RowsPayload CostRow))
    (assumptionsRes : Except String (RowsPayload AssumptionRow)) :
    Except String DashboardState := do
  let summaryPayload ← summaryRes
  let hourlyPayload ← hourlyRes
  let costPayload ← costRes
  let assumptionsPayload ← assumptionsRes
  pure { currentScenario := jsOrStr summaryPayload.scenario_id scenarioId
         summary := summaryPayload
         hourly := hourlyPayload.rows.getD []
         costRows := costPayload.rows.getD []
         assumptionsRows := assumptionsPayload.rows.getD [] }

/-- The static branch of `loadScenarioData` (app.js lines 939-959): one
summary fetch and three tabular fetches; on success the summary is stamped
with the scenario id and the assumption rows are column-aliased. -/
def loadScenarioDataStatic (scenarioId : String)
    (summaryRes : Except String SummaryPayload)
    (hourlyRes : Except String (List HRow))
    (costRes : Except String (List CostRow))
    (assumptionsRes : Except String (List RawAssumptionRow)) :
    Except String DashboardState := do
  let summaryPayload ← summaryRes
  let hourlyRows ← hourlyRes
  let costs ← costRes
  let assumptions ← assumptionsRes
  pure { currentScenario := scenarioId
         summary := { summaryPayload with
                      scenario_id := some (jsOrStr summaryPayload.scenario_id scenarioId) }
         hourly := hourlyRows
         costRows := costs
         assumptionsRows := assumptions.map mapAssumptionRow }

/-- Publication of one finished load over the current dashboard state: a
rejected load leaves the globals untouched (the assignments of app.js lines
947-958 run only after `Promise.all` resolves), a fulfilled load replaces
them wholesale and unconditionally. -/
def applyLoadResult (st : DashboardState) (result : Except String DashboardState) :
    DashboardState :=
  match result with
  | .error _ => st
  | .ok st2 => st2

/-- The dashboard state after a sequence of load completions, applied in
completion order (the event-loop interleaving of overlapping
`loadScenarioData` calls). -/
def runLoadCompletions (st : DashboardState) (completions : List (Except String DashboardState)) :
    DashboardState :=
  completions.foldl applyLoadResult st

/-- The dashboard state before any scenario load. -/
def initialDashboardState : DashboardState :=
  { currentScenario := "", summary := {}, hourly := [], costRows := [],
    assumptionsRows := [] }

/-- Claim C2: in either retrieval mode, if any of the four retrievals of a
scenario load fails, the load as a whole fails with one of the retrieval
errors and publishing it leaves the previous dashboard state entirely
unchanged; when all four succeed, the load replaces all five fields together
from the four payloads. -/
theorem loadScenarioData_allOrNothing
    (st : DashboardState) (sid : String)
    (s : Except String SummaryPayload) (h : Except String (List HRow))
    (c : Except String (List CostRow)) (a : Except String (List RawAssumptionRow))
    (s2 : Except String SummaryPayload) (h2 : Except String (RowsPayload HRow))
    (c2 : Except String (RowsPayload CostRow))
    (a2 : Except String (RowsPayload AssumptionRow)) :
    (((∃ e, s = Except.error e) ∨ (∃ e, h = Except.error e)
        ∨ (∃ e, c = Except.error e) ∨ (∃ e, a = Except.error e)) →
      applyLoadResult st (loadScenarioDataStatic sid s h c a) = st
      ∧ ∃ e, loadScenarioDataStatic sid s h c a = Except.error e
          ∧ (s = Except.error e ∨ h = Except.error e
              ∨ c = Except.error e ∨ a = Except.error e))
    ∧ (((∃ e, s2 = Except.error e) ∨ (∃ e, h2 = Except.error e)
        ∨ (∃ e, c2 = Except.error e) ∨ (∃ e, a2 = Except.error e)) →
      applyLoadResult st (loadScenarioDataApi sid s2 h2 c2 a2) = st
      ∧ ∃ e, loadScenarioDataApi sid s2 h2 c2 a2 = Except.error e
          ∧ (s2 = Except.error e ∨ h2 = Except.error e
              ∨ c2 = Except.error e ∨ a2 = Except.error e))
    ∧ (∀ sv hv cv av, loadScenarioDataStatic sid (Except.ok sv) (Except.ok hv)
          (Except.ok cv) (Except.ok av)
        = Except.ok { currentScenario := sid
                      summary := { sv with
                                   scenario_id := some (jsOrStr sv.scenario_id sid) }
                      hourly := hv
                      costRows := cv
                      assumptionsRows := av.map mapAssumptionRow })
    ∧ (∀ sv hv cv av, loadScenarioDataApi sid (Except.ok sv) (Except.ok hv)
          (Except.ok cv) (Except.ok av)
        = Except.ok { currentScenario := jsOrStr sv.scenario_id sid
                      summary := sv
                      hourly := hv.rows.getD []
                      costRows := cv.rows.getD []
                      assumptionsRows := av.rows.getD [] }) := by
  refine ⟨?_, ?_, fun sv hv cv av => rfl, fun sv hv cv av => rfl⟩
  · intro hfail
    cases s with
    | error e => exact ⟨rfl, e, rfl, Or.inl rfl⟩
    | ok sv =>
        cases h with
        | error e => exact ⟨rfl, e, rfl, Or.inr (Or.inl rfl)⟩
        | ok hv =>
            cases c with
            | error e => exact ⟨rfl, e, rfl, Or.inr (Or.inr (Or.inl rfl))⟩
            | ok cv =>
                cases a with
                | error e => exact ⟨rfl, e, rfl, Or.inr (Or.inr (Or.inr rfl))⟩
                | ok av =>
                    rcases hfail with ⟨e, he⟩ | ⟨e, he⟩ | ⟨e, he⟩ | ⟨e, he⟩ <;>
                      exact absurd he (by simp)
  · intro hfail
    cases s2 with
    | error e => exact ⟨rfl, e, rfl, Or.inl rfl⟩
    | ok sv =>
        cases h2 with
        | error e => exact ⟨rfl, e, rfl, Or.inr (Or.inl rfl)⟩
        | ok hv =>
            cases c2 with
            | error e => exact ⟨rfl, e, rfl, Or.inr (Or.inr (Or.inl rfl))⟩
            | ok cv =>
                cases a2 with
                | error e => exact ⟨rfl, e, rfl, Or.inr (Or.inr (Or.inr rfl))⟩
                | ok av =>
                    rcases hfail with ⟨e, he⟩ | ⟨e, he⟩ | ⟨e, he⟩ | ⟨e, he⟩ <;>
                      exact absurd he (by simp)

/-- Claim C2 witness: a failed summary retrieval in static mode leaves the
initial dashboard state unchanged. -/
theorem loadScenarioData_allOrNothing_witness :
    applyLoadResult initialDashboardState
        (loadScenarioDataStatic "nf70" (Except.error "503 Service Unavailable")
          (Except.ok []) (Except.ok []) (Except.ok []))
      = initialDashboardState :=
  ((loadScenarioData_allOrNothing initialDashboardState "nf70"
      (Except.error "503 Service Unavailable") (Except.ok []) (Except.ok []) (Except.ok [])
      (Except.error "x") (Except.ok {}) (Except.ok {}) (Except.ok {})).1
    (Or.inl ⟨"503 Service Unavailable", rfl⟩)).1

/-- Claim C1 (code bug): the loader publishes whichever load completes last,
with no staleness guard. Concretely: a load for scenario A is initiated,
then a load for scenario B; both succeed; the retrievals of B complete first
and those of A complete last (completion order B then A). The published current
scenario is then A — the abandoned selection — although the claim requires
the published data to reflect B, never A. In general the last completion
always wins regardless of initiation order. -/
theorem staleLoad_lastCompletionWins :
    (runLoadCompletions initialDashboardState
        [loadScenarioDataStatic "B" (Except.ok {}) (Except.ok []) (Except.ok []) (Except.ok []),
          loadScenarioDataStatic "A" (Except.ok {}) (Except.ok []) (Except.ok []) (Except.ok [])]
      ).currentScenario = "A"
    ∧ "A" ≠ "B"
    ∧ (∀ (st : DashboardState) (pre : List (Except String DashboardState))
          (d : DashboardState),
        runLoadCompletions st (pre ++ [Except.ok d]) = d) := by
  refine ⟨rfl, by decide, ?_⟩
  intro st pre d
  rw [runLoadCompletions, List.foldl_append]
  rfl

/-- One comparison row: the fetched summary payload tagged with a scenario
id and label (app.js lines 966-978). -/
structure ComparisonRow where
  payload : SummaryPayload
  scenario_id : String
  scenario_label : String
deriving DecidableEq

/-- The tagging applied to one fulfilled comparison fetch (app.js lines
966-970 in API mode and 974-978 in static mode): the API branch lets the
payload-reported id win over the catalog id, the static branch uses the
catalog id; the label falls back to the id when blank. -/
def tagComparison (useApi : Bool) (payload : SummaryPayload)
    (row : ScenarioDescriptor) : ComparisonRow :=
  if useApi then
    { payload := payload
      scenario_id := jsOrStr payload.scenario_id row.id
      scenario_label :=
        ((strTruthy row.label).orElse (fun _ => optStrTruthy payload.scenario_id)).getD row.id }
  else
    { payload := payload
      scenario_id := row.id
      scenario_label := (strTruthy row.label).getD row.id }

/-- One comparison task (one entry of the `Promise.allSettled` fan-out,
app.js lines 962-979): the fetch result, tagged on success. -/
def comparisonTask (useApi : Bool) (fetchResult : Except String SummaryPayload)
    (row : ScenarioDescriptor) : Except String ComparisonRow :=
  fetchResult.map (fun payload => tagComparison useApi payload row)

/-- Embedding of `loadComparisonData` (app.js lines 961-986): fan out one summary fetch
per catalog entry, keep the fulfilled results in order, and count the
rejections as `settled - fulfilled`. -/
def loadComparisonData (useApi : Bool)
    (fetch : ScenarioDescriptor → Except String SummaryPayload)
    (scenarios : List ScenarioDescriptor) : List ComparisonRow × ℕ :=
  let settled := scenarios.map (fun row => comparisonTask useApi (fetch row) row)
  let fulfilled := settled.filterMap Except.toOption
  (fulfilled, settled.length - fulfilled.length)

section ComparisonLemmas

theorem comparison_fulfilled (useApi : Bool)
    (fetch : ScenarioDescriptor → Except String SummaryPayload) :
    ∀ scenarios : List ScenarioDescriptor,
      ((scenarios.map (fun row => comparisonTask useApi (fetch row) row)).filterMap
        Except.toOption)
        = scenarios.filterMap (fun row =>
            match fetch row with
            | .error _ => none
            | .ok payload => some (tagComparison useApi payload row)) := by
  intro scenarios
  induction scenarios with
  | nil => rfl
  | cons row rest ih =>
      simp only [comparisonTask, Except.map] at ih
      cases hfr : fetch row with
      | error e =>
          simp only [List.map_cons, List.filterMap_cons, comparisonTask, hfr,
            Except.map, Except.toOption, ih]
      | ok payload =>
          simp only [List.map_cons, List.filterMap_cons, comparisonTask, hfr,
            Except.map, Except.toOption, ih]

theorem comparison_counts (useApi : Bool)
    (fetch : ScenarioDescriptor → Except String SummaryPayload) :
    ∀ scenarios : List ScenarioDescriptor,
      scenarios.length
          - ((scenarios.map (fun row => comparisonTask useApi (fetch row) row)).filterMap
              Except.toOption).length
        = (scenarios.countP (fun row =>
            match fetch row with
            | .error _ => true
            | .ok _ => false))
      ∧ ((scenarios.map (fun row => comparisonTask useApi (fetch row) row)).filterMap
          Except.toOption).length ≤ scenarios.length := by
  intro scenarios
  induction scenarios with
  | nil => exact ⟨rfl, Nat.le_refl 0⟩
  | cons row rest ih =>
      obtain ⟨ihcount, ihle⟩ := ih
      simp only [comparisonTask, Except.map] at ihcount ihle
      cases hfr : fetch row with
      | error e =>
          simp only [List.map_cons, List.filterMap_cons, List.countP_cons,
            List.length_cons, comparisonTask, hfr, Except.map, Except.toOption,
            ite_true, ite_false, Bool.false_eq_true, eq_self_iff_true]
          refine ⟨?_, Nat.le_succ_of_le ihle⟩
          omega
      | ok payload =>
          simp only [List.map_cons, List.filterMap_cons, List.countP_cons,
            List.length_cons, comparisonTask, hfr, Except.map, Except.toOption,
            ite_true, ite_false, Bool.false_eq_true, eq_self_iff_true]
          refine ⟨?_, Nat.succ_le_succ ihle⟩
          omega

end ComparisonLemmas

/-- Claim C7 counterexample: in API mode, a summary payload that reports a
different scenario id than its catalog entry is tagged with the reported id,
not the originating id — here catalog id s1 yields tag other. The fan-out
still succeeds with zero failures. -/
theorem loadComparisonData_counterexample :
    (loadComparisonData true (fun _ => Except.ok { scenario_id := some "other" })
        [{ id := "s1", label := "L1", source := "static_index" }]).1.map
      ComparisonRow.scenario_id = ["other"]
    ∧ (loadComparisonData true (fun _ => Except.ok { scenario_id := some "other" })
        [{ id := "s1", label := "L1", source := "static_index" }]).1.map
      ComparisonRow.scenario_id ≠ ["s1"]
    ∧ (loadComparisonData true (fun _ => Except.ok { scenario_id := some "other" })
        [{ id := "s1", label := "L1", source := "static_index" }]).2 = 0 := by
  refine ⟨by decide, by decide, by decide⟩

/-- Claim C7 (amended): the comparison fan-out never fails as a whole; for a
catalog of n scenarios of which k retrievals reject, the assembled list is
exactly the fulfilled results in catalog order (each the tagged payload of a
successful fetch), its length plus the reported failure count equals n, and
the failure count equals k. In static mode every row is tagged with its
originating catalog id, and with the originating label unless that label is
blank, in which case the id stands in; in API mode a payload-reported id
takes precedence over the originating id. -/
theorem loadComparisonData_spec (useApi : Bool)
    (fetch : ScenarioDescriptor → Except String SummaryPayload)
    (scenarios : List ScenarioDescriptor) :
    (loadComparisonData useApi fetch scenarios).1
        = scenarios.filterMap (fun row =>
            match fetch row with
            | .error _ => none
            | .ok payload => some (tagComparison useApi payload row))
    ∧ (loadComparisonData useApi fetch scenarios).2
        = (scenarios.countP (fun row =>
            match fetch row with
            | .error _ => true
            | .ok _ => false))
    ∧ (loadComparisonData useApi fetch scenarios).1.length
        + (loadComparisonData useApi fetch scenarios).2 = scenarios.length
    ∧ (useApi = false → ∀ cr ∈ (loadComparisonData useApi fetch scenarios).1,
        ∃ row ∈ scenarios, fetch row = Except.ok cr.payload
          ∧ cr.scenario_id = row.id
          ∧ cr.scenario_label = (if row.label = "" then row.id else row.label)) := by
  have hful := comparison_fulfilled useApi fetch scenarios
  obtain ⟨hcount, hle⟩ := comparison_counts useApi fetch scenarios
  have hlen : (scenarios.map (fun row => comparisonTask useApi (fetch row) row)).length
      = scenarios.length := List.length_map _ _
  refine ⟨hful, ?_, ?_, ?_⟩
  · show (scenarios.map (fun row => comparisonTask useApi (fetch row) row)).length
        - ((scenarios.map (fun row => comparisonTask useApi (fetch row) row)).filterMap
            Except.toOption).length = _
    rw [hlen]
    exact hcount
  · show ((scenarios.map (fun row => comparisonTask useApi (fetch row) row)).filterMap
        Except.toOption).length
      + ((scenarios.map (fun row => comparisonTask useApi (fetch row) row)).length
        - ((scenarios.map (fun row => comparisonTask useApi (fetch row) row)).filterMap
            Except.toOption).length) = scenarios.length
    rw [hlen]
    omega
  · intro huse cr hcr
    rw [show (loadComparisonData useApi fetch scenarios).1
        = ((scenarios.map (fun row => comparisonTask useApi (fetch row) row)).filterMap
            Except.toOption) from rfl, hful] at hcr
    obtain ⟨row, hrow, hsome⟩ := List.mem_filterMap.mp hcr
    cases hfr : fetch row with
    | error e =>
        rw [hfr] at hsome
        exact absurd hsome (by simp)
    | ok payload =>
        rw [hfr] at hsome
        have hcr2 : cr = tagComparison useApi payload row := by
          simpa using hsome.symm
        subst hcr2
        subst huse
        refine ⟨row, hrow, ?_, ?_, ?_⟩
        · rw [hfr]
          rfl
        · rfl
        · show (strTruthy row.label).getD row.id = _
          by_cases hl : row.label = ""
          · rw [strTruthy, if_pos hl, if_pos hl]
            rfl
          · rw [strTruthy, if_neg hl, if_neg hl]
            rfl

/-- The five-scenario catalog of the comparison example in the specification. -/
def scenarios5 : List ScenarioDescriptor :=
  [{ id := "s1", label := "L1", source := "static_index" },
    { id := "s2", label := "L2", source := "static_index" },
    { id := "s3", label := "L3", source := "static_index" },
    { id := "s4", label := "L4", source := "static_index" },
    { id := "s5", label := "L5", source := "static_index" }]

/-- A fetch in which exactly the retrieval of the third scenario rejects. -/
def fetchOneFailure : ScenarioDescriptor → Except String SummaryPayload :=
  fun row => if row.id = "s3" then Except.error "fetch failed" else Except.ok {}

/-- The first assembled row of the five-scenario comparison example. -/
def comparisonRowS1 : ComparisonRow :=
  { payload := {}, scenario_id := "s1", scenario_label := "L1" }

/-- Claim C7 witness: the static-mode tagging applied to one assembled row
of the five-scenario example with one rejection; four rows are assembled and
one failure is counted. -/
theorem loadComparisonData_spec_witness :
    (∃ row ∈ scenarios5,
        fetchOneFailure row = Except.ok comparisonRowS1.payload
          ∧ comparisonRowS1.scenario_id = row.id
          ∧ comparisonRowS1.scenario_label
              = (if row.label = "" then row.id else row.label))
    ∧ (loadComparisonData false fetchOneFailure scenarios5).1.length = 4
    ∧ (loadComparisonData false fetchOneFailure scenarios5).2 = 1 :=
  ⟨(loadComparisonData_spec false fetchOneFailure scenarios5).2.2.2 rfl
      comparisonRowS1 (by decide),
    by decide, by decide⟩
